import Mathlib

/-!
Shallow embedding of the order / loyalty / promocode / product-pricing
services of the gna_tg_miniapp repository
(`app/services/order_service.py`, `app/services/loyalty_service.py`,
`app/services/promocode_service.py`, `app/services/product_service.py`).

Python `Decimal` values are modelled as exact rationals (`ℚ`); the
database `Numeric(10, 2)` columns hold exact 2-decimal values, and every
arithmetic operation performed by the services (add, subtract, multiply,
divide by the constants 1 and 100, compare, `min`) is exact at these
magnitudes under the default 28-digit Decimal context, so the rational
model is faithful.  `Decimal.quantize(Decimal("0.01"))` with the default
context rounds to 2 decimal places with ROUND_HALF_EVEN; it is modelled
explicitly by `quantize2` below.  `datetime` instants are modelled as
integer timestamps.  Database rows are modelled as structures, the
session state touched by an operation is passed and returned explicitly,
and a raised `ValueError` (which aborts the request before any commit,
so the transaction is rolled back) is modelled as an error value
carrying no mutated state.
-/

namespace Gna

/-- Round a rational to an integer with round-half-to-even (the default
rounding mode of Python's `Decimal` context, used by `quantize`). -/
def roundHalfEven (q : ℚ) : ℤ :=
  let n := ⌊q⌋
  let f := q - n
  if f < 1 / 2 then n
  else if 1 / 2 < f then n + 1
  else if n % 2 = 0 then n else n + 1

/-- `x.quantize(Decimal("0.01"))` under the default Decimal context:
round to 2 decimal places, ties to even. -/
def quantize2 (q : ℚ) : ℚ :=
  (roundHalfEven (q * 100) : ℚ) / 100

/-- Rounding to 2 decimal places with round-half-up, as the spec's words
describe the rounding ("half-up").  Declared only to compare the spec's
claimed rounding mode with the code's actual one. -/
def roundHalfUp2 (q : ℚ) : ℚ :=
  ((⌊q * 100 + 1 / 2⌋ : ℤ) : ℚ) / 100

/-! ### Catalog pricing (`ProductService.get_discounted_price`) -/

/-- Catalog product row (`app/models/product.py`): `price` and
`discount_price` are `Numeric(10,2)` columns, `discount_percentage` a
`Numeric(5,2)` column, the validity bounds nullable datetimes and
`stock_quantity` a nullable integer. -/
structure Product where
  price : ℚ
  stock_quantity : Option Int
  discount_percentage : Option ℚ
  discount_price : Option ℚ
  discount_valid_from : Option Int
  discount_valid_until : Option Int
deriving DecidableEq

/-- The `is_discount_active` computation inside
`ProductService.get_discounted_price`: some discount field must be
present, and `now` must not be before `discount_valid_from` (when set),
and otherwise not after `discount_valid_until` (when set). -/
def discount_active (now : Int) (p : Product) : Bool :=
  if p.discount_percentage.isSome || p.discount_price.isSome then
    if p.discount_valid_from.any (fun vf => decide (now < vf)) then false
    else if p.discount_valid_until.any (fun vu => decide (vu < now)) then false
    else true
  else false

/-- `ProductService.get_discounted_price`: if the discount is inactive,
return the base price; otherwise a fixed `discount_price` wins;
otherwise a percentage discount returns
`(price - price * pct / 100).quantize(Decimal("0.01"))`. -/
def get_discounted_price (now : Int) (p : Product) : ℚ :=
  if discount_active now p = false then p.price
  else
    match p.discount_price with
    | some dp => dp
    | none =>
      match p.discount_percentage with
      | some pct => quantize2 (p.price - p.price * (pct / 100))
      | none => p.price

/-! ### Loyalty ledger (`LoyaltyService`) -/

/-- Loyalty account row (`app/models/loyalty.py`), `Numeric(10,2)`
columns. -/
structure LoyaltyAccount where
  points_balance : ℚ
  total_earned : ℚ
  total_spent : ℚ
deriving DecidableEq

/-- Loyalty ledger row (`app/models/loyalty.py`): `points` is signed
(positive when earned, negative when spent) and `balance_after`
snapshots the balance.  The free-text description is not modelled. -/
structure LoyaltyTransaction where
  order_id : Option Nat
  transaction_type : String
  points : ℚ
  balance_after : ℚ
deriving DecidableEq

/-- The two `ValueError`s that `LoyaltyService.earn_points` /
`spend_points` can raise: non-positive points, or a spend exceeding the
balance (naming the available and required amounts). -/
inductive LoyaltyErr where
  | nonPositivePoints : LoyaltyErr
  | insufficientBalance (available required : ℚ) : LoyaltyErr
deriving DecidableEq

/-- `LoyaltyService.earn_points`: requires `points > 0`, then adds the
points to `points_balance` and `total_earned` and appends one "earned"
ledger row recording the resulting balance.  The error case raises
before any mutation, so it returns the account unchanged and appends
nothing. -/
def earn_points (account : LoyaltyAccount) (points : ℚ) (oid : Option Nat) :
    Option LoyaltyErr × LoyaltyAccount × List LoyaltyTransaction :=
  if points ≤ 0 then (some .nonPositivePoints, account, [])
  else
    let acc : LoyaltyAccount :=
      { account with
        points_balance := account.points_balance + points
        total_earned := account.total_earned + points }
    (none, acc, [⟨oid, "earned", points, acc.points_balance⟩])

/-- `LoyaltyService.spend_points`: requires `points > 0` and
`points_balance ≥ points` (else an insufficient-balance error naming the
available and the required amounts), then subtracts the points from
`points_balance`, adds them to `total_spent`, and appends one "spent"
ledger row with the negated points and the resulting balance.  Both
error cases raise before any mutation, so they return the account
unchanged and append nothing. -/
def spend_points (account : LoyaltyAccount) (points : ℚ) (oid : Option Nat) :
    Option LoyaltyErr × LoyaltyAccount × List LoyaltyTransaction :=
  if points ≤ 0 then (some .nonPositivePoints, account, [])
  else if account.points_balance < points then
    (some (.insufficientBalance account.points_balance points), account, [])
  else
    let acc : LoyaltyAccount :=
      { account with
        points_balance := account.points_balance - points
        total_spent := account.total_spent + points }
    (none, acc, [⟨oid, "spent", -points, acc.points_balance⟩])

/-- `LoyaltyService.calculate_discount_from_points`: `points /
points_per_rub`, quantized to 2 decimals.  `create_order` always calls
it with `points_per_rub = 1`. -/
def calculate_discount_from_points (points points_per_rub : ℚ) : ℚ :=
  quantize2 (points / points_per_rub)

/-- The order fields read by `OrderService.award_loyalty_points`:
`user_telegram_id` (nullable) and `loyalty_points_earned` (nullable
`Numeric(10,2)`). -/
structure OrderInfo where
  user_telegram_id : Option Int
  loyalty_points_earned : Option ℚ
deriving DecidableEq

/-- The database state read and written by
`OrderService.award_loyalty_points`: the user's loyalty account and the
loyalty-transaction ledger. -/
structure AwardState where
  account : LoyaltyAccount
  ledger : List LoyaltyTransaction
deriving DecidableEq

/-- `OrderService.award_loyalty_points`: returns `False` without any
mutation when the order has no (or a falsy) `user_telegram_id`, when an
"earned" ledger row for this `order_id` already exists, or when
`loyalty_points_earned` is absent or non-positive; otherwise credits the
account through `LoyaltyService.earn_points` and appends the new ledger
row, returning `True`. -/
def award_loyalty_points (oid : Nat) (order : OrderInfo) (st : AwardState) :
    Except LoyaltyErr (Bool × AwardState) :=
  match order.user_telegram_id with
  | none => .ok (false, st)
  | some u =>
    if u = 0 then .ok (false, st)
    else if st.ledger.any
        (fun t => t.order_id == some oid && t.transaction_type == "earned") then
      .ok (false, st)
    else
      let pts := order.loyalty_points_earned.getD 0
      if pts ≤ 0 then .ok (false, st)
      else
        match earn_points st.account pts (some oid) with
        | (some e, _, _) => .error e
        | (none, acc, txns) => .ok (true, ⟨acc, st.ledger ++ txns⟩)

/-! ### Order status transitions (`OrderService.update_status`,
`OrderService.cancel_order`) and their stock side effects -/

/-- One order line item together with its product's `stock_quantity`
(the only product field `_deduct_stock` / `_restore_stock` touch). -/
structure StockItem where
  quantity : Int
  stock_quantity : Option Int
deriving DecidableEq

/-- The order state touched by a status transition. -/
structure OrderState where
  status : String
  items : List StockItem
deriving DecidableEq

/-- `OrderService._restore_stock`: for every item whose product tracks
stock, add the item's quantity back to the product's stock. -/
def restore_stock (items : List StockItem) : List StockItem :=
  items.map fun it =>
    match it.stock_quantity with
    | none => it
    | some s => { it with stock_quantity := some (s + it.quantity) }

/-- `OrderService._deduct_stock`: for every item whose product tracks
stock, subtract the item's quantity, raising (which rolls the
uncommitted transaction back, hence `none`) if any product's stock is
insufficient. -/
def deduct_stock : List StockItem → Option (List StockItem)
  | [] => some []
  | it :: rest =>
    match it.stock_quantity with
    | none => (deduct_stock rest).map (fun r => it :: r)
    | some s =>
      if s < it.quantity then none
      else (deduct_stock rest).map
        (fun r => { it with stock_quantity := some (s - it.quantity) } :: r)

/-- The status whitelist of `OrderService.update_status`. -/
def valid_statuses : List String :=
  ["new", "accepted", "preparing", "ready", "cancelled", "completed"]

/-- The `ValueError`s raised by `update_status` / `cancel_order` /
`_deduct_stock`. -/
inductive UpdErr where
  | invalidStatus (s : String) : UpdErr
  | insufficientStock : UpdErr
  | cannotCancel (s : String) : UpdErr
deriving DecidableEq

/-- The status branch of `OrderService.update_status`: any requested
status contained in `valid_statuses` is accepted and assigned (there is
no transition-adjacency validation in the source); transitioning to
`accepted` from a different status deducts stock, and transitioning to
`cancelled` from `new` or `accepted` restores stock.  The independent
`payment_status` branch of the same method (which triggers
`award_loyalty_points` on a transition to paid) is modelled separately
by `award_loyalty_points`. -/
def update_status (st : OrderState) (status : Option String) :
    Except UpdErr OrderState :=
  match status with
  | none => .ok st
  | some s =>
    if s ∈ valid_statuses then
      let old := st.status
      let st1 : OrderState := { st with status := s }
      let afterDeduct : Except UpdErr OrderState :=
        if old ≠ "accepted" ∧ s = "accepted" then
          match deduct_stock st1.items with
          | none => .error .insufficientStock
          | some items2 => .ok { st1 with items := items2 }
        else .ok st1
      match afterDeduct with
      | .error e => .error e
      | .ok st2 =>
        if old ∈ (["new", "accepted"] : List String) ∧ s = "cancelled" then
          .ok { st2 with items := restore_stock st2.items }
        else .ok st2
    else .error (.invalidStatus s)

/-- `OrderService.cancel_order`: rejects unless the current status is
`new` or `accepted`; otherwise sets the status to `cancelled` and (for
both `new` and `accepted`) restores stock for every line item. -/
def cancel_order (st : OrderState) : Except UpdErr OrderState :=
  if st.status ∈ (["new", "accepted"] : List String) then
    let old := st.status
    let st1 : OrderState := { st with status := "cancelled" }
    if old ∈ (["new", "accepted"] : List String) then
      .ok { st1 with items := restore_stock st1.items }
    else .ok st1
  else .error (.cannotCancel st.status)

/-! ### Promocodes (`PromocodeService`) -/

/-- Promocode row (`app/models/promocode.py`), restricted to the fields
`validate_promocode` / `calculate_discount` read. -/
structure Promocode where
  is_active : Bool
  valid_from : Option Int
  valid_until : Option Int
  min_order_amount : Option ℚ
  max_uses : Option Nat
  uses_count : Nat
  max_uses_per_user : Option Nat
  discount_type : String
  discount_value : ℚ
  max_discount_amount : Option ℚ
deriving DecidableEq

/-- The distinct rejection reasons returned by
`PromocodeService.validate_promocode` (each is a distinct message string
in the source). -/
inductive PromoErr where
  | notFound : PromoErr
  | inactive : PromoErr
  | notYetValid : PromoErr
  | expired : PromoErr
  | belowMinAmount : PromoErr
  | exhausted : PromoErr
  | userLimitReached : PromoErr
  | authRequired : PromoErr
deriving DecidableEq

/-- `PromocodeService.validate_promocode`.  The database lookup of the
code is modelled by the `Option Promocode` argument, and the count of
this user's usage rows by `user_usage_count`.  `none` means the
promocode is valid.  Note the Python truthiness on `min_order_amount`
(`if promocode.min_order_amount and ...`): a minimum of 0 disables the
check. -/
def validate_promocode (pc? : Option Promocode) (now : Int)
    (order_amount : ℚ) (user_telegram_id : Option Int)
    (user_usage_count : Nat) : Option PromoErr :=
  match pc? with
  | none => some .notFound
  | some pc =>
    if pc.is_active = false then some .inactive
    else if pc.valid_from.any (fun vf => decide (now < vf)) then some .notYetValid
    else if pc.valid_until.any (fun vu => decide (vu < now)) then some .expired
    else if pc.min_order_amount.any
        (fun m => !decide (m = 0) && decide (order_amount < m)) then
      some .belowMinAmount
    else if pc.max_uses.any (fun mu => decide (mu ≤ pc.uses_count)) then
      some .exhausted
    else
      match user_telegram_id, pc.max_uses_per_user with
      | some _, some mupu =>
        if mupu ≤ user_usage_count then some .userLimitReached else none
      | none, some _ => some .authRequired
      | _, none => none

/-- The validation chain exactly as the spec words it, in the spec's
order: code exists → active flag → validity window (distinct
not-yet-valid and expired reasons) → minimum order amount → global usage
cap → per-user usage cap, with an authentication-required rejection when
a per-user cap exists but no user identity is available. -/
def validate_promocode_spec (pc? : Option Promocode) (now : Int)
    (order_amount : ℚ) (user_telegram_id : Option Int)
    (user_usage_count : Nat) : Option PromoErr :=
  match pc? with
  | none => some .notFound
  | some pc =>
    if pc.is_active = false then some .inactive
    else if pc.valid_from.any (fun vf => decide (now < vf)) then some .notYetValid
    else if pc.valid_until.any (fun vu => decide (vu < now)) then some .expired
    else if pc.min_order_amount.any (fun m => decide (order_amount < m)) then
      some .belowMinAmount
    else if pc.max_uses.any (fun mu => decide (mu ≤ pc.uses_count)) then
      some .exhausted
    else
      match user_telegram_id, pc.max_uses_per_user with
      | some _, some mupu =>
        if mupu ≤ user_usage_count then some .userLimitReached else none
      | none, some _ => some .authRequired
      | _, none => none

/-- `PromocodeService.calculate_discount`: percentage type computes
`order_amount * value / 100`, capped by `max_discount_amount` when that
field is truthy (`if promocode.max_discount_amount:` — set and nonzero);
fixed type uses the value directly; either way the result is capped at
`order_amount` and quantized to 2 decimals. -/
def calculate_discount (pc : Promocode) (order_amount : ℚ) : ℚ :=
  let discount :=
    if pc.discount_type = "percentage" then
      let d := order_amount * (pc.discount_value / 100)
      match pc.max_discount_amount with
      | some m => if m = 0 then d else min d m
      | none => d
    else pc.discount_value
  quantize2 (min discount order_amount)

/-- `calculate_discount` as the claim words it: the cap applies whenever
`max_discount_amount` is set (non-null), with no nonzero proviso.
Declared only to compare the claim's wording with the code. -/
def calculate_discount_claim (pc : Promocode) (order_amount : ℚ) : ℚ :=
  let discount :=
    if pc.discount_type = "percentage" then
      let d := order_amount * (pc.discount_value / 100)
      match pc.max_discount_amount with
      | some m => min d m
      | none => d
    else pc.discount_value
  quantize2 (min discount order_amount)

/-! ### Loyalty redemption inside `OrderService.create_order` -/

/-- The loyalty-redemption block of `OrderService.create_order` (lines
267–296): when a points spend is requested (truthy) and a (truthy) user
id is present, the discount from the points is computed by
`calculate_discount_from_points(points, 1)`, then clamped to
`min(discount, amount_after_promocode * 0.90, amount_after_promocode)`;
when the clamped discount is positive, the points recorded as spent (and
later passed to `spend_points`) are the full requested
`loyalty_points_to_spend`.  Returns `(loyalty_discount,
loyalty_points_spent)`. -/
def apply_loyalty (subtotal_amount promocode_discount : ℚ)
    (loyalty_points_to_spend : Option ℚ) (user_telegram_id : Option Int) :
    ℚ × ℚ :=
  match loyalty_points_to_spend, user_telegram_id with
  | some pts, some u =>
    if pts = 0 ∨ u = 0 then (0, 0)
    else
      let loyalty_discount := calculate_discount_from_points pts 1
      let amount_after_promocode := subtotal_amount - promocode_discount
      let max_loyalty_discount := amount_after_promocode * (90 / 100)
      let d := min loyalty_discount (min max_loyalty_discount amount_after_promocode)
      if 0 < d then (d, pts) else (d, 0)
  | _, _ => (0, 0)

/-! ### Helper lemmas about the rounding functions -/

theorem roundHalfEven_eq_low (q : ℚ) (n : ℤ) (h1 : (n : ℚ) ≤ q)
    (h2 : q - n < 1 / 2) : roundHalfEven q = n := by
  have hfl : ⌊q⌋ = n := Int.floor_eq_iff.mpr ⟨h1, by linarith⟩
  simp only [roundHalfEven, hfl]
  rw [if_pos h2]

theorem roundHalfEven_eq_high (q : ℚ) (n : ℤ) (h1 : (n : ℚ) + 1 / 2 < q)
    (h2 : q < n + 1) : roundHalfEven q = n + 1 := by
  have hfl : ⌊q⌋ = n := Int.floor_eq_iff.mpr ⟨by linarith, h2⟩
  simp only [roundHalfEven, hfl]
  rw [if_neg (by linarith), if_pos (by linarith)]

theorem roundHalfEven_tie (q : ℚ) (n : ℤ) (h : q = (n : ℚ) + 1 / 2) :
    roundHalfEven q = if n % 2 = 0 then n else n + 1 := by
  have hfl : ⌊q⌋ = n := Int.floor_eq_iff.mpr ⟨by rw [h]; linarith, by rw [h]; linarith⟩
  simp only [roundHalfEven, hfl]
  rw [if_neg (by rw [h]; linarith), if_neg (by rw [h]; linarith)]

theorem roundHalfEven_le_int (q : ℚ) (k : ℤ) (h : q ≤ (k : ℚ)) :
    roundHalfEven q ≤ k := by
  have hfl : ⌊q⌋ ≤ k := by
    have hm := Int.floor_mono h
    rwa [Int.floor_intCast] at hm
  by_cases h1 : q - (⌊q⌋ : ℚ) < 1 / 2
  · simp only [roundHalfEven]
    rw [if_pos h1]
    exact hfl
  · have hlt : ⌊q⌋ < k := by
      rcases eq_or_lt_of_le hfl with h' | h'
      · exfalso
        apply h1
        have hq : q = (k : ℚ) :=
          le_antisymm h (by rw [← h']; exact Int.floor_le q)
        rw [hq, ← h']
        norm_num
      · exact h'
    simp only [roundHalfEven]
    rw [if_neg h1]
    split_ifs <;> omega

theorem quantize2_le_cent (q : ℚ) (k : ℤ) (h : q ≤ (k : ℚ) / 100) :
    quantize2 q ≤ (k : ℚ) / 100 := by
  unfold quantize2
  have h1 : q * 100 ≤ (k : ℚ) := by linarith
  have h2 := roundHalfEven_le_int (q * 100) k h1
  have h3 : ((roundHalfEven (q * 100) : ℤ) : ℚ) ≤ (k : ℚ) := by exact_mod_cast h2
  linarith

theorem quantize2_cent (k : ℤ) : quantize2 ((k : ℚ) / 100) = (k : ℚ) / 100 := by
  unfold quantize2
  have h : (k : ℚ) / 100 * 100 = (k : ℚ) := div_mul_cancel₀ _ (by norm_num)
  rw [h, roundHalfEven_eq_low _ k le_rfl (by norm_num)]

theorem quantize2_int (n : ℤ) : quantize2 ((n : ℚ)) = (n : ℚ) := by
  have h : ((n : ℚ)) = ((100 * n : ℤ) : ℚ) / 100 := by push_cast; ring
  rw [h, quantize2_cent]

theorem quantize2_nonpos (q : ℚ) (h : q ≤ 0) : quantize2 q ≤ 0 := by
  have h0 : q ≤ ((0 : ℤ) : ℚ) / 100 := by push_cast; linarith
  have := quantize2_le_cent q 0 h0
  simpa using this

/-! ### C1: status state machine -/

/-- C1 counterexample: the claim says a backward jump such as
`completed → new` is rejected as invalid and leaves the status
unchanged; in the code `update_status` accepts it and changes the
status. -/
theorem update_status_accepts_backward_jump :
    update_status ⟨"completed", []⟩ (some "new") = .ok ⟨"new", []⟩ ∧
    ("completed" : String) ≠ "new" :=
  ⟨rfl, by decide⟩

/-- C1 (amended): `update_status` validates only membership of the
requested status in the whitelist — any listed status (here any
non-`accepted` target, which avoids the stock-deduction side condition)
is accepted and assigned regardless of the current status, and only
unknown statuses are rejected; only `cancel_order` restricts
cancellation to the statuses `new` and `accepted`. -/
theorem update_status_only_checks_membership (st : OrderState) (s : String) :
    (s ∉ valid_statuses → update_status st (some s) = .error (.invalidStatus s)) ∧
    (s ∈ valid_statuses → s ≠ "accepted" →
      ∃ st2, update_status st (some s) = .ok st2 ∧ st2.status = s) ∧
    (st.status ∉ (["new", "accepted"] : List String) →
      cancel_order st = .error (.cannotCancel st.status)) ∧
    (st.status ∈ (["new", "accepted"] : List String) →
      ∃ st2, cancel_order st = .ok st2 ∧ st2.status = "cancelled") := by
  refine ⟨?_, ?_, ?_, ?_⟩
  · intro hns
    simp [update_status, hns]
  · intro hs hna
    simp only [update_status, if_pos hs]
    rw [if_neg (fun h => hna h.2)]
    dsimp only
    split_ifs with hc
    · exact ⟨_, rfl, rfl⟩
    · exact ⟨_, rfl, rfl⟩
  · intro hns
    simp [cancel_order, hns]
  · intro hs
    simp only [cancel_order, if_pos hs]
    exact ⟨_, rfl, rfl⟩

/-- Witness for `update_status_only_checks_membership`: the non-adjacent
jump `completed → ready` is accepted, and the unknown status `"zzz"` is
rejected. -/
theorem update_status_only_checks_membership_witness :
    (("ready" : String) ∈ valid_statuses ∧ ("ready" : String) ≠ "accepted" ∧
      ∃ st2, update_status ⟨"completed", []⟩ (some "ready") = .ok st2 ∧
        st2.status = "ready") ∧
    (("zzz" : String) ∉ valid_statuses ∧
      update_status ⟨"new", []⟩ (some "zzz") = .error (.invalidStatus "zzz")) :=
  ⟨⟨by decide, by decide,
    (update_status_only_checks_membership ⟨"completed", []⟩ "ready").2.1
      (by decide) (by decide)⟩,
   ⟨by decide,
    (update_status_only_checks_membership ⟨"new", []⟩ "zzz").1 (by decide)⟩⟩

/-! ### C2: stock restoration on cancellation -/

/-- C2 (code-bug exhibit): cancelling an order whose status is `new`
(one line item of quantity 2, product stock 5) restores stock that was
never deducted — both through `cancel_order` and through
`update_status`'s transition to `cancelled` the stock becomes 7, while
the claim (and the spec's "restores exactly the quantities deducted"
invariant) requires it to stay 5, stock being deducted only on the
transition to `accepted`. -/
theorem cancel_order_from_new_inflates_stock :
    cancel_order ⟨"new", [⟨2, some 5⟩]⟩ = .ok ⟨"cancelled", [⟨2, some 7⟩]⟩ ∧
    update_status ⟨"new", [⟨2, some 5⟩]⟩ (some "cancelled") =
      .ok ⟨"cancelled", [⟨2, some 7⟩]⟩ ∧
    (7 : Int) ≠ 5 :=
  ⟨rfl, rfl, by decide⟩

/-! ### C3: idempotent loyalty accrual -/

/-- C3: for an order with a (truthy) user id and positive
`loyalty_points_earned`, when no "earned" ledger row for this order id
exists yet, the first `award_loyalty_points` call credits the account
once (returning `True`, incrementing the balance by the points and
leaving exactly one "earned" row for the order id), and the second call
finds the existing row, mutates nothing, appends nothing, and returns
`False`. -/
theorem award_loyalty_points_idempotent (oid : Nat) (u : Int) (pts : ℚ)
    (st : AwardState) (hu : u ≠ 0) (hpts : 0 < pts)
    (hnew : st.ledger.any
      (fun t => t.order_id == some oid && t.transaction_type == "earned") = false) :
    ∃ st1, award_loyalty_points oid ⟨some u, some pts⟩ st = .ok (true, st1) ∧
      st1.account.points_balance = st.account.points_balance + pts ∧
      st1.ledger.countP
        (fun t => t.order_id == some oid && t.transaction_type == "earned") = 1 ∧
      award_loyalty_points oid ⟨some u, some pts⟩ st1 = .ok (false, st1) := by
  have hple : ¬ pts ≤ 0 := not_le.mpr hpts
  refine ⟨⟨{ st.account with
        points_balance := st.account.points_balance + pts
        total_earned := st.account.total_earned + pts },
      st.ledger ++
        [⟨some oid, "earned", pts, st.account.points_balance + pts⟩]⟩,
    ?_, rfl, ?_, ?_⟩
  · simp [award_loyalty_points, earn_points, hu, hnew, hple]
  · have h0 : st.ledger.countP
        (fun t => t.order_id == some oid && t.transaction_type == "earned") = 0 := by
      rw [List.countP_eq_zero]
      intro t ht
      have := List.any_eq_false.mp hnew t ht
      simpa using this
    simp [List.countP_append, h0]
  · simp [award_loyalty_points, hu, List.any_append, hnew]

/-- Witness for `award_loyalty_points_idempotent` at order id 7, user 1,
5 points, an empty ledger and a zero account. -/
theorem award_loyalty_points_idempotent_witness :
    (1 : Int) ≠ 0 ∧ (0 : ℚ) < 5 ∧
    (∃ st1, award_loyalty_points 7 ⟨some 1, some 5⟩ ⟨⟨0, 0, 0⟩, []⟩ = .ok (true, st1) ∧
      st1.account.points_balance =
        (⟨⟨0, 0, 0⟩, []⟩ : AwardState).account.points_balance + 5 ∧
      st1.ledger.countP
        (fun t => t.order_id == some 7 && t.transaction_type == "earned") = 1 ∧
      award_loyalty_points 7 ⟨some 1, some 5⟩ st1 = .ok (false, st1)) :=
  ⟨by decide, by norm_num,
    award_loyalty_points_idempotent 7 1 5 ⟨⟨0, 0, 0⟩, []⟩ (by decide) (by norm_num) rfl⟩

/-! ### C4: spend_points error handling -/

/-- C4: `spend_points` rejects a non-positive spend with a validation
error, rejects a spend exceeding the balance with an
insufficient-balance error naming the available and required amounts,
leaves the account unmutated and the ledger unappended in both error
cases, and never produces a negative balance. -/
theorem spend_points_error_safety (account : LoyaltyAccount) (pts : ℚ)
    (oid : Option Nat) :
    (pts ≤ 0 → spend_points account pts oid = (some .nonPositivePoints, account, [])) ∧
    (0 < pts → account.points_balance < pts →
      spend_points account pts oid =
        (some (.insufficientBalance account.points_balance pts), account, [])) ∧
    (0 ≤ account.points_balance →
      ∀ e acc txns, spend_points account pts oid = (e, acc, txns) →
        0 ≤ acc.points_balance) := by
  refine ⟨?_, ?_, ?_⟩
  · intro h
    simp [spend_points, h]
  · intro h1 h2
    simp [spend_points, not_le.mpr h1, h2]
  · intro hbal e acc txns heq
    unfold spend_points at heq
    split_ifs at heq with h1 h2
    · injection heq with he hrest
      injection hrest with hacc htxns
      rw [← hacc]
      exact hbal
    · injection heq with he hrest
      injection hrest with hacc htxns
      rw [← hacc]
      exact hbal
    · injection heq with he hrest
      injection hrest with hacc htxns
      rw [← hacc]
      exact sub_nonneg.mpr (not_lt.mp h2)

/-- Witness for `spend_points_error_safety`: the spec's scenario —
balance 50, spend request 80 — is rejected with the insufficient-balance
error naming 50 and 80 and leaves the account unchanged; a non-positive
request is rejected with the validation error. -/
theorem spend_points_error_safety_witness :
    spend_points ⟨50, 0, 0⟩ 80 none =
      (some (.insufficientBalance 50 80), ⟨50, 0, 0⟩, []) ∧
    spend_points ⟨50, 0, 0⟩ (-3) none =
      (some .nonPositivePoints, ⟨50, 0, 0⟩, []) :=
  ⟨(spend_points_error_safety ⟨50, 0, 0⟩ 80 none).2.1 (by norm_num) (by norm_num),
   (spend_points_error_safety ⟨50, 0, 0⟩ (-3) none).1 (by norm_num)⟩

/-! ### C5: discounted price bounded by base price -/

/-- C5 counterexample: a product with base price 100 and an active fixed
`discount_price` of 150 gets price 150 from `get_discounted_price`,
strictly above the base price, contradicting the claim that the result
never exceeds the base price. -/
theorem get_discounted_price_exceeds_base_cex :
    get_discounted_price 0 ⟨100, none, none, some 150, none, none⟩ = 150 ∧
    ¬ (150 : ℚ) ≤ 100 :=
  ⟨rfl, by norm_num⟩

/-- C5 (amended): `get_discounted_price` never exceeds the base price
provided the configured fixed `discount_price` (if any) does not exceed
the base price, the configured percentage (if any) is nonnegative, and
the base price is a nonnegative whole number of cents (as the
`Numeric(10,2)` column stores it); and it returns exactly the base price
whenever no discount field is configured or the current time is outside
the validity window. -/
theorem get_discounted_price_bounded (now : Int) (p : Product)
    (hp0 : 0 ≤ p.price) (hcent : ∃ k : ℤ, p.price = (k : ℚ) / 100)
    (hdp : ∀ d, p.discount_price = some d → d ≤ p.price)
    (hpct : ∀ c, p.discount_percentage = some c → 0 ≤ c) :
    get_discounted_price now p ≤ p.price ∧
    (p.discount_percentage = none ∧ p.discount_price = none →
      get_discounted_price now p = p.price) ∧
    (∀ vf, p.discount_valid_from = some vf → now < vf →
      get_discounted_price now p = p.price) ∧
    (∀ vu, p.discount_valid_until = some vu → vu < now →
      get_discounted_price now p = p.price) := by
  refine ⟨?_, ?_, ?_, ?_⟩
  · cases hact : discount_active now p with
    | false => simp [get_discounted_price, hact]
    | true =>
      cases hdpc : p.discount_price with
      | some d =>
        have h1 : get_discounted_price now p = d := by
          simp [get_discounted_price, hact, hdpc]
        rw [h1]
        exact hdp d hdpc
      | none =>
        cases hpc : p.discount_percentage with
        | some c =>
          have h1 : get_discounted_price now p =
              quantize2 (p.price - p.price * (c / 100)) := by
            simp [get_discounted_price, hact, hdpc, hpc]
          rw [h1]
          obtain ⟨k, hk⟩ := hcent
          have hc := hpct c hpc
          have harg : p.price - p.price * (c / 100) ≤ (k : ℚ) / 100 := by
            have hnn : 0 ≤ p.price * (c / 100) :=
              mul_nonneg hp0 (div_nonneg hc (by norm_num))
            rw [← hk]
            linarith
          calc quantize2 (p.price - p.price * (c / 100)) ≤ (k : ℚ) / 100 :=
                quantize2_le_cent _ k harg
            _ = p.price := hk.symm
        | none => simp [get_discounted_price, hact, hdpc, hpc]
  · rintro ⟨h1, h2⟩
    simp [get_discounted_price, discount_active, h1, h2]
  · intro vf hvf hlt
    simp [get_discounted_price, discount_active, hvf, hlt]
  · intro vu hvu hlt
    simp [get_discounted_price, discount_active, hvu, hlt]

/-- Witness for `get_discounted_price_bounded`: a product priced 100
with a 10% discount whose window has not started yet (now = 0, window
starts at 5) is sold at the base price, which also bounds the result. -/
theorem get_discounted_price_bounded_witness :
    get_discounted_price 0 ⟨100, none, some 10, none, some 5, none⟩ ≤ (100 : ℚ) ∧
    get_discounted_price 0 ⟨100, none, some 10, none, some 5, none⟩ = (100 : ℚ) := by
  have h := get_discounted_price_bounded 0 ⟨100, none, some 10, none, some 5, none⟩
    (by norm_num) ⟨10000, by norm_num⟩
    (fun d hd => nomatch hd)
    (fun c hc => by injection hc with h'; subst h'; norm_num)
  exact ⟨h.1, h.2.2.1 5 rfl (by norm_num)⟩

/-! ### C6: active-discount price computation and its rounding mode -/

/-- C6 counterexample: for a product with base price 0.25 and an active
50% discount, the code returns `(0.25 * 0.5).quantize(0.01)` under the
default ROUND_HALF_EVEN, which is 0.12, while the claim's half-up
rounding of the same value is 0.13. -/
theorem get_discounted_price_half_up_cex :
    get_discounted_price 0 ⟨1/4, none, some 50, none, none, none⟩ = 3 / 25 ∧
    roundHalfUp2 ((1/4 : ℚ) * (1 - 50 / 100)) = 13 / 100 ∧
    (3 / 25 : ℚ) ≠ 13 / 100 := by
  refine ⟨?_, ?_, by norm_num⟩
  · have h1 : get_discounted_price 0 ⟨1/4, none, some 50, none, none, none⟩
        = quantize2 ((1/4 : ℚ) - 1/4 * (50 / 100)) := rfl
    rw [h1]
    unfold quantize2
    rw [roundHalfEven_tie _ 12 (by push_cast; norm_num)]
    norm_num
  · unfold roundHalfUp2
    rw [show ((1/4 : ℚ) * (1 - 50 / 100) * 100 + 1 / 2) = ((13 : ℤ) : ℚ) by
      push_cast; norm_num]
    rw [Int.floor_intCast]
    norm_num

/-- C6 (amended): for a product whose discount is active, a fixed
`discount_price` is returned as-is and wins even when a percentage is
also set; otherwise a configured percentage gives
`base * (1 - pct / 100)` quantized to 2 decimal places with
round-half-even (banker's rounding, the Decimal default), not
half-up. -/
theorem get_discounted_price_active_cases (now : Int) (p : Product)
    (hact : discount_active now p = true) :
    (∀ d, p.discount_price = some d → get_discounted_price now p = d) ∧
    (p.discount_price = none → ∀ c, p.discount_percentage = some c →
      get_discounted_price now p = quantize2 (p.price * (1 - c / 100))) := by
  constructor
  · intro d hd
    simp [get_discounted_price, hact, hd]
  · intro hdp c hc
    have h1 : get_discounted_price now p =
        quantize2 (p.price - p.price * (c / 100)) := by
      simp [get_discounted_price, hact, hdp, hc]
    rw [h1]
    exact congrArg quantize2 (by ring)

/-- Witness for `get_discounted_price_active_cases`: with both discount
fields set and active, the fixed price 80 wins; with only the
percentage set, the quantized formula is used. -/
theorem get_discounted_price_active_cases_witness :
    get_discounted_price 0 ⟨100, none, some 50, some 80, none, none⟩ = 80 ∧
    get_discounted_price 0 ⟨1/4, none, some 50, none, none, none⟩ =
      quantize2 ((1/4 : ℚ) * (1 - 50 / 100)) :=
  ⟨(get_discounted_price_active_cases 0 ⟨100, none, some 50, some 80, none, none⟩
      rfl).1 80 rfl,
   (get_discounted_price_active_cases 0 ⟨1/4, none, some 50, none, none, none⟩
      rfl).2 rfl 50 rfl⟩

/-! ### C7: promocode validation check order -/

/-- C7: `validate_promocode` returns exactly the first failing reason of
the spec's ordered chain existence → active flag → not-yet-valid →
expired → minimum order amount → global usage cap → per-user usage cap /
authentication-required (for every nonnegative order amount the code's
truthiness test on `min_order_amount` coincides with the spec's check). -/
theorem validate_promocode_check_order (pc? : Option Promocode) (now : Int)
    (amt : ℚ) (user : Option Int) (uses : Nat) (hamt : 0 ≤ amt) :
    validate_promocode pc? now amt user uses =
      validate_promocode_spec pc? now amt user uses := by
  cases pc? with
  | none => rfl
  | some pc =>
    have hc : (pc.min_order_amount.any
          (fun m => !decide (m = 0) && decide (amt < m)))
        = (pc.min_order_amount.any (fun m => decide (amt < m))) := by
      cases hmo : pc.min_order_amount with
      | none => rfl
      | some m =>
        by_cases hm : m = 0
        · subst hm
          simp [not_lt.mpr hamt]
        · simp [hm]
    simp only [validate_promocode, validate_promocode_spec, hc]

/-- Witness for `validate_promocode_check_order`: a promocode with a
per-user cap validated without a user identity agrees with the spec
chain and is rejected with the authentication-required reason. -/
theorem validate_promocode_check_order_witness :
    (0 : ℚ) ≤ 100 ∧
    validate_promocode
        (some ⟨true, none, none, none, none, 0, some 1, "percentage", 10, none⟩)
        0 100 none 0 =
      validate_promocode_spec
        (some ⟨true, none, none, none, none, 0, some 1, "percentage", 10, none⟩)
        0 100 none 0 ∧
    validate_promocode
        (some ⟨true, none, none, none, none, 0, some 1, "percentage", 10, none⟩)
        0 100 none 0 = some .authRequired :=
  ⟨by norm_num,
   validate_promocode_check_order
     (some ⟨true, none, none, none, none, 0, some 1, "percentage", 10, none⟩)
     0 100 none 0 (by norm_num),
   rfl⟩

/-! ### C8: promocode discount computation -/

/-- C8 counterexample: for a percentage promocode whose
`max_discount_amount` is set to 0, the code's truthiness test skips the
cap (returning 10 on a 10% code at order amount 100), while the claim's
formula — capped by `max_discount_amount` whenever it is set — yields
0. -/
theorem calculate_discount_zero_cap_cex :
    calculate_discount
        ⟨true, none, none, none, none, 0, none, "percentage", 10, some 0⟩ 100 = 10 ∧
    calculate_discount_claim
        ⟨true, none, none, none, none, 0, none, "percentage", 10, some 0⟩ 100 = 0 ∧
    (10 : ℚ) ≠ 0 := by
  refine ⟨?_, ?_, by norm_num⟩
  · have h1 : calculate_discount
        ⟨true, none, none, none, none, 0, none, "percentage", 10, some 0⟩ 100 =
        quantize2 (min ((100 : ℚ) * (10 / 100)) 100) := rfl
    rw [h1, show ((100 : ℚ) * (10 / 100)) = 10 by norm_num,
      min_eq_left (by norm_num : (10 : ℚ) ≤ 100),
      show (10 : ℚ) = ((10 : ℤ) : ℚ) by norm_num, quantize2_int]
  · have h1 : calculate_discount_claim
        ⟨true, none, none, none, none, 0, none, "percentage", 10, some 0⟩ 100 =
        quantize2 (min (min ((100 : ℚ) * (10 / 100)) 0) 100) := rfl
    rw [h1, show ((100 : ℚ) * (10 / 100)) = 10 by norm_num,
      min_eq_right (by norm_num : (0 : ℚ) ≤ 10),
      min_eq_left (by norm_num : (0 : ℚ) ≤ 100),
      show (0 : ℚ) = ((0 : ℤ) : ℚ) by norm_num, quantize2_int]

/-- C8 (amended): `calculate_discount` computes, for percentage type,
`order_amount * value / 100` capped by `max_discount_amount` when that
cap is set to a nonzero value (a cap of 0 is skipped by the code's
truthiness test), for fixed type the value directly, and in either case
the result is capped at `order_amount` and quantized to 2 decimals. -/
theorem calculate_discount_formula (pc : Promocode) (amt : ℚ) :
    (pc.discount_type = "percentage" → pc.max_discount_amount = none →
      calculate_discount pc amt =
        quantize2 (min (amt * (pc.discount_value / 100)) amt)) ∧
    (∀ m, pc.discount_type = "percentage" → pc.max_discount_amount = some m →
      m ≠ 0 →
      calculate_discount pc amt =
        quantize2 (min (min (amt * (pc.discount_value / 100)) m) amt)) ∧
    (pc.discount_type ≠ "percentage" →
      calculate_discount pc amt = quantize2 (min pc.discount_value amt)) := by
  refine ⟨?_, ?_, ?_⟩
  · intro ht hm
    simp [calculate_discount, ht, hm]
  · intro m ht hm hm0
    simp [calculate_discount, ht, hm, hm0]
  · intro ht
    simp [calculate_discount, ht]

/-- Witness for `calculate_discount_formula`: the claim's scenario — a
10% promocode with `max_discount_amount` 300 on an order of 5000 —
yields min(500, 300) = 300. -/
theorem calculate_discount_formula_witness :
    calculate_discount
      ⟨true, none, none, none, none, 0, none, "percentage", 10, some 300⟩ 5000
      = 300 := by
  have h := (calculate_discount_formula
    ⟨true, none, none, none, none, 0, none, "percentage", 10, some 300⟩ 5000).2.1
    300 rfl rfl (by norm_num)
  rw [h, show ((5000 : ℚ) * (10 / 100)) = 500 by norm_num,
    min_eq_right (by norm_num : (300 : ℚ) ≤ 500),
    min_eq_left (by norm_num : (300 : ℚ) ≤ 5000),
    show (300 : ℚ) = ((300 : ℤ) : ℚ) by norm_num, quantize2_int]

/-! ### C9 / C10: loyalty redemption inside create_order -/

/-- Helper: the input-output behaviour of the loyalty-redemption block
when the requested points and the user id are both truthy. -/
theorem apply_loyalty_spec (subtotal promo pts : ℚ) (u : Int)
    (hpts : pts ≠ 0) (hu : u ≠ 0) :
    (apply_loyalty subtotal promo (some pts) (some u)).1 =
      min (calculate_discount_from_points pts 1)
        (min ((subtotal - promo) * (90 / 100)) (subtotal - promo)) ∧
    (0 < min (calculate_discount_from_points pts 1)
        (min ((subtotal - promo) * (90 / 100)) (subtotal - promo)) →
      (apply_loyalty subtotal promo (some pts) (some u)).2 = pts) ∧
    (¬ 0 < min (calculate_discount_from_points pts 1)
        (min ((subtotal - promo) * (90 / 100)) (subtotal - promo)) →
      (apply_loyalty subtotal promo (some pts) (some u)).2 = 0) := by
  have hne : ¬ (pts = 0 ∨ u = 0) := by
    rintro (h | h)
    exacts [hpts h, hu h]
  simp only [apply_loyalty]
  rw [if_neg hne]
  split_ifs with hd
  · exact ⟨rfl, fun _ => rfl, fun h => absurd hd h⟩
  · exact ⟨rfl, fun h => absurd h hd, fun _ => rfl⟩

/-- C9: the loyalty discount applied by `create_order` equals
`min(requested discount, 0.90 * (subtotal - promocode discount),
subtotal - promocode discount)`; consequently it never exceeds 90% of
the amount remaining after the promocode discount, and whenever that
remaining amount is positive the final total
`max(0, subtotal - (promocode discount + loyalty discount))` stays
strictly positive. -/
theorem loyalty_discount_clamped (subtotal promo pts : ℚ) (u : Int)
    (hpts : pts ≠ 0) (hu : u ≠ 0) :
    (apply_loyalty subtotal promo (some pts) (some u)).1 =
      min (calculate_discount_from_points pts 1)
        (min ((subtotal - promo) * (90 / 100)) (subtotal - promo)) ∧
    (apply_loyalty subtotal promo (some pts) (some u)).1 ≤
      (subtotal - promo) * (90 / 100) ∧
    (0 < subtotal - promo →
      0 < max 0 (subtotal -
        (promo + (apply_loyalty subtotal promo (some pts) (some u)).1))) := by
  have h1 := (apply_loyalty_spec subtotal promo pts u hpts hu).1
  have hle : (apply_loyalty subtotal promo (some pts) (some u)).1 ≤
      (subtotal - promo) * (90 / 100) := by
    rw [h1]
    exact le_trans (min_le_right _ _) (min_le_left _ _)
  refine ⟨h1, hle, ?_⟩
  intro hrem
  have hx : 0 < subtotal -
      (promo + (apply_loyalty subtotal promo (some pts) (some u)).1) := by
    linarith
  exact lt_of_lt_of_le hx (le_max_right _ _)

/-- Witness for `loyalty_discount_clamped` at subtotal 100, no promocode
discount and a requested spend of 95 points by user 1. -/
theorem loyalty_discount_clamped_witness :
    (apply_loyalty 100 0 (some 95) (some 1)).1 =
      min (calculate_discount_from_points 95 1)
        (min (((100 : ℚ) - 0) * (90 / 100)) ((100 : ℚ) - 0)) ∧
    (apply_loyalty 100 0 (some 95) (some 1)).1 ≤
      ((100 : ℚ) - 0) * (90 / 100) ∧
    0 < max 0 ((100 : ℚ) - (0 + (apply_loyalty 100 0 (some 95) (some 1)).1)) := by
  have h := loyalty_discount_clamped 100 0 95 1 (by norm_num) (by norm_num)
  exact ⟨h.1, h.2.1, h.2.2 (by norm_num)⟩

/-- C10: when the clamp lowers the loyalty discount strictly below the
discount value of the requested points while leaving it positive, the
points recorded as spent are still the full requested amount, and
`spend_points` (given a sufficient balance) deducts exactly that full
requested amount from the account. -/
theorem loyalty_points_spent_full_requested (subtotal promo pts : ℚ) (u : Int)
    (account : LoyaltyAccount) (oid : Option Nat)
    (hpts : pts ≠ 0) (hu : u ≠ 0)
    (hclamped : (apply_loyalty subtotal promo (some pts) (some u)).1 <
      calculate_discount_from_points pts 1)
    (hpos : 0 < (apply_loyalty subtotal promo (some pts) (some u)).1)
    (hbal : pts ≤ account.points_balance) :
    (apply_loyalty subtotal promo (some pts) (some u)).2 = pts ∧
    (spend_points account (apply_loyalty subtotal promo (some pts) (some u)).2
      oid).1 = none ∧
    (spend_points account (apply_loyalty subtotal promo (some pts) (some u)).2
      oid).2.1.points_balance = account.points_balance - pts := by
  have hspec := apply_loyalty_spec subtotal promo pts u hpts hu
  have hdpos : 0 < min (calculate_discount_from_points pts 1)
      (min ((subtotal - promo) * (90 / 100)) (subtotal - promo)) := by
    rw [← hspec.1]
    exact hpos
  have h2 : (apply_loyalty subtotal promo (some pts) (some u)).2 = pts :=
    hspec.2.1 hdpos
  have hqpos : 0 < calculate_discount_from_points pts 1 :=
    lt_of_lt_of_le hdpos (min_le_left _ _)
  have hppos : 0 < pts := by
    by_contra hle
    push_neg at hle
    have : calculate_discount_from_points pts 1 ≤ 0 := by
      unfold calculate_discount_from_points
      exact quantize2_nonpos _ (by rw [div_one]; exact hle)
    linarith
  rw [h2]
  refine ⟨rfl, ?_, ?_⟩
  · simp [spend_points, not_le.mpr hppos, not_lt.mpr hbal]
  · simp [spend_points, not_le.mpr hppos, not_lt.mpr hbal]

/-- Witness for `loyalty_points_spent_full_requested`: subtotal 100, no
promocode discount, 95 points requested (discount value 95) by user 1 —
the discount is clamped to 90 yet the full 95 points are spent, draining
a balance of 95 to 0. -/
theorem loyalty_points_spent_full_requested_witness :
    (apply_loyalty 100 0 (some 95) (some 1)).2 = 95 ∧
    (spend_points ⟨95, 0, 0⟩ (apply_loyalty 100 0 (some 95) (some 1)).2
      none).1 = none ∧
    (spend_points ⟨95, 0, 0⟩ (apply_loyalty 100 0 (some 95) (some 1)).2
      none).2.1.points_balance = 0 := by
  have hq : calculate_discount_from_points 95 1 = 95 := by
    unfold calculate_discount_from_points
    rw [show ((95 : ℚ) / 1) = ((95 : ℤ) : ℚ) by norm_num, quantize2_int]
    norm_num
  have hfst : (apply_loyalty 100 0 (some 95) (some 1)).1 = 90 := by
    rw [(apply_loyalty_spec 100 0 95 1 (by norm_num) (by norm_num)).1, hq,
      show (((100 : ℚ) - 0) * (90 / 100)) = 90 by norm_num,
      show ((100 : ℚ) - 0) = 100 by norm_num,
      min_eq_left (by norm_num : (90 : ℚ) ≤ 100),
      min_eq_right (by norm_num : (90 : ℚ) ≤ 95)]
  have h := loyalty_points_spent_full_requested 100 0 95 1 ⟨95, 0, 0⟩ none
    (by norm_num) (by norm_num) (by rw [hfst, hq]; norm_num)
    (by rw [hfst]; norm_num) (by norm_num)
  exact ⟨h.1, h.2.1, by rw [h.2.2]; norm_num⟩

end Gna
